import Mathlib

/-!
Verification of the layer-composition core of the `thinc` subsystem:
`chain` (composition, flattening, dimension inference), `MeanPool`, and
`LayerNorm` (normalization backward formula, gradient accumulation,
dropout discipline, width resolution).

Pure layer computation is embedded with rationals standing for the
(idealized) floating-point scalars; backend array kernels that are out of
scope (pooling, dropout masks, the inverse-square-root power) are
universally quantified parameters, mirroring the spec's treatment of the
ops backend as an external collaborator.
-/

/-! ## Chain: forward and backward (`src/thinc/layers/chain.py`, `forward`) -/

/-- A layer as consumed by `chain.forward`: a function from an input and a
training flag to an output and a backward closure. -/
def ChainLayer (α : Type) : Type := α → Bool → α × (α → α)

namespace Chain

/-- The loop body of `forward`: feed `X` through each layer in order,
collecting each backward closure in invocation order, returning the last
output together with the collected closure list. -/
def runLayers {α : Type} : List (ChainLayer α) → α → Bool → α × List (α → α)
  | [], X, _ => (X, [])
  | l :: ls, X, it =>
    let r := l X it
    let rest := runLayers ls r.1 it
    (rest.1, r.2 :: rest.2)

/-- `forward` from `chain.py`: with zero sublayers the Python function
raises (`Y` is unbound at the `return`), which we model as `none`;
otherwise it returns the last output and the backward closure that folds
the collected callbacks in reversed order. -/
def forward {α : Type} (layers : List (ChainLayer α)) (X : α) (is_train : Bool) :
    Option (α × (α → α)) :=
  match layers with
  | [] => none
  | _ :: _ =>
    let r := runLayers layers X is_train
    some (r.1, fun dY => r.2.reverse.foldl (fun g cb => cb g) dY)

/-- Spec-side description of the composite output: the input folded
through each layer's forward output in order. -/
def specOut {α : Type} (layers : List (ChainLayer α)) (X : α) (it : Bool) : α :=
  layers.foldl (fun x l => (l x it).1) X

/-- Spec-side description of the collected backward closures, in
invocation order. -/
def specCbs {α : Type} : List (ChainLayer α) → α → Bool → List (α → α)
  | [], _, _ => []
  | l :: ls, X, it => (l X it).2 :: specCbs ls (l X it).1 it

/-- Spec-side description of the composite backward: apply the collected
closures in reverse order, each consuming the gradient produced by the
next-in-forward-order closure. -/
def specBack {α : Type} (cbs : List (α → α)) (dY : α) : α :=
  cbs.foldr (fun cb g => cb g) dY

theorem runLayers_eq {α : Type} (layers : List (ChainLayer α)) (X : α) (it : Bool) :
    runLayers layers X it = (specOut layers X it, specCbs layers X it) := by
  induction layers generalizing X with
  | nil => rfl
  | cons l ls ih => simp [runLayers, specOut, specCbs, List.foldl, ih, specOut]

end Chain

/-! ## Chain: the structural model (construction, flattening, init)

`Model` itself lives outside the covered sources, but the pieces that
chain construction and initialization read and write are its identity, its
forward-function identity, its sublayer list and its `nI`/`nO` dimensions.
`has_dim` is three-valued in the host object: `some true` for a dimension
registered and set, `none` for registered-but-unset (Python `None`),
`some false` for an unregistered dimension; truthiness in the Python
conditions means `some true`. -/

/-- The state of one dimension entry of a model. -/
inductive DimState : Type where
  | absent : DimState
  | unset : DimState
  | set : Nat → DimState
deriving DecidableEq

/-- `has_dim` as exposed by the model host: `some true` when set, `none`
when registered but unset, `some false` when not registered. -/
def DimState.hasDim : DimState → Option Bool
  | DimState.set _ => some true
  | DimState.unset => none
  | DimState.absent => some false

/-- Truthiness of `has_dim` in a Python condition. -/
def DimState.isSet : DimState → Bool
  | DimState.set _ => true
  | _ => false

/-- Identity of a model's forward function: either the chain module's
`forward` or some other function (tagged). -/
inductive FwdFunc : Type where
  | chainFwd : FwdFunc
  | other : Nat → FwdFunc
deriving DecidableEq

/-- The structural face of a `Model`: object identity (`uid`), name,
forward-function identity, sublayer list, and the `nI`/`nO` dimension
entries. In-place Python mutation is modelled as a functional update that
preserves `uid`. -/
inductive CModel : Type where
  | mk : Nat → String → FwdFunc → List CModel → DimState → DimState → CModel

def CModel.uid : CModel → Nat
  | CModel.mk u _ _ _ _ _ => u

def CModel.name : CModel → String
  | CModel.mk _ n _ _ _ _ => n

def CModel.func : CModel → FwdFunc
  | CModel.mk _ _ f _ _ _ => f

def CModel.layers : CModel → List CModel
  | CModel.mk _ _ _ ls _ _ => ls

def CModel.nI : CModel → DimState
  | CModel.mk _ _ _ _ i _ => i

def CModel.nO : CModel → DimState
  | CModel.mk _ _ _ _ _ o => o

def CModel.setLayers : CModel → List CModel → CModel
  | CModel.mk u n f _ i o, ls => CModel.mk u n f ls i o

def CModel.setNI : CModel → DimState → CModel
  | CModel.mk u n f ls _ o, i => CModel.mk u n f ls i o

def CModel.setNO : CModel → DimState → CModel
  | CModel.mk u n f ls i _, o => CModel.mk u n f ls i o

@[simp] theorem CModel.setLayers_uid (m : CModel) (ls : List CModel) :
    (m.setLayers ls).uid = m.uid := by cases m; rfl

@[simp] theorem CModel.setLayers_func (m : CModel) (ls : List CModel) :
    (m.setLayers ls).func = m.func := by cases m; rfl

@[simp] theorem CModel.setLayers_layers (m : CModel) (ls : List CModel) :
    (m.setLayers ls).layers = ls := by cases m; rfl

@[simp] theorem CModel.setNI_setNO_uid (m : CModel) (i o : DimState) :
    ((m.setNI i).setNO o).uid = m.uid := by cases m; rfl

@[simp] theorem CModel.setNI_setNO_func (m : CModel) (i o : DimState) :
    ((m.setNI i).setNO o).func = m.func := by cases m; rfl

@[simp] theorem CModel.setNI_setNO_layers (m : CModel) (i o : DimState) :
    ((m.setNI i).setNO o).layers = m.layers := by cases m; rfl

@[simp] theorem CModel.setNO_nI (m : CModel) (o : DimState) :
    (m.setNO o).nI = m.nI := by cases m; rfl

@[simp] theorem CModel.setNO_nO (m : CModel) (o : DimState) :
    (m.setNO o).nO = o := by cases m; rfl

/-- `layers[-1]` as a total lookup. -/
def lastO : List CModel → Option CModel
  | [] => none
  | [l] => some l
  | _ :: l2 :: ls => lastO (l2 :: ls)

namespace Chain

/-- The reverse walk of `init` (data mode), operating on the reversed
sublayer list: set a sublayer's registered-but-unset `nO` to the running
width when one is known; continue with that sublayer's set `nI` as the new
running width, or leave the remaining (earlier) sublayers untouched when
`has_dim("nI")` is not truthy. -/
def revWalk : List CModel → Option Nat → List CModel
  | [], _ => []
  | l :: ls, w? =>
    let l2 := match w?, l.nO with
      | some w, DimState.unset => l.setNO (DimState.set w)
      | _, _ => l
    match l2.nI with
    | DimState.set v => l2 :: revWalk ls (some v)
    | _ => l2 :: ls

/-- Spec-side description of one step of the reverse walk: when an output
width is known and the sublayer's output width is not yet set (registered
but unset), set it; otherwise leave the sublayer unchanged. -/
def specWalkStep (w? : Option Nat) (l : CModel) : CModel :=
  match w? with
  | some w => if l.nO = DimState.unset then l.setNO (DimState.set w) else l
  | none => l

/-- The forward pass of `init` (data mode): initialize every sublayer but
the last on the running sample, replacing the sample by the initialized
sublayer's prediction; initialize the last sublayer with the final sample
and the original `Y`. Sublayer initialization and prediction belong to the
individual layers and are parameters. -/
def fwdInitPass {δ : Type} (initLXY : CModel → Option δ → Option δ → CModel)
    (predict : CModel → Option δ → Option δ) :
    List CModel → Option δ → Option δ → List CModel
  | [], _, _ => []
  | [l], X, Y? => [initLXY l X Y?]
  | l :: l2 :: ls, X, Y? =>
    let li := initLXY l X none
    li :: fwdInitPass initLXY predict (l2 :: ls) (predict li X) Y?

/-- The closing lines of `init`: copy the first sublayer's set `nI` and
the last sublayer's set `nO` onto the composite, when truthy. -/
def setEndDims (m : CModel) : CModel :=
  let i2 := match m.layers.head? with
    | some l0 => match l0.nI with
      | DimState.set v => DimState.set v
      | _ => m.nI
    | none => m.nI
  let o2 := match lastO m.layers with
    | some ll => match ll.nO with
      | DimState.set v => DimState.set v
      | _ => m.nO
    | none => m.nO
  (m.setNI i2).setNO o2

/-- `init` from `chain.py`. With no sublayers it returns at once. With no
sample data it initializes each sublayer (per-layer initialization is the
parameter `initL`) and copies the end dimensions. With sample data it
resolves the target output width from `Y` (else from the composite's set
`nO`), runs the reverse walk, then the forward initialization pass, then
copies the end dimensions. -/
def init {δ : Type} (initL : CModel → CModel)
    (initLXY : CModel → Option δ → Option δ → CModel)
    (predict : CModel → Option δ → Option δ) (getW : δ → Nat)
    (m : CModel) (X? Y? : Option δ) : CModel :=
  if m.layers.isEmpty then m
  else
    match X?, Y? with
    | none, none => setEndDims (m.setLayers (m.layers.map initL))
    | _, _ =>
      let w0 : Option Nat := match Y? with
        | some y => some (getW y)
        | none => match m.nO with
          | DimState.set v => some v
          | _ => none
      let ls1 := (revWalk m.layers.reverse w0).reverse
      setEndDims (m.setLayers (fwdInitPass initLXY predict ls1 X? Y?))

/-- The constructor branch of `chain` that builds a fresh composite:
name is the sublayer names joined by the separator, forward function is
the chain forward, both dimensions registered but unset; if the first
sublayer has a set `nI` and the last a set `nO`, the composite is
initialized eagerly with no data. -/
def chainNew {δ : Type} (initL : CModel → CModel)
    (initLXY : CModel → Option δ → Option δ → CModel)
    (predict : CModel → Option δ → Option δ) (getW : δ → Nat)
    (fresh : Nat) (layers : List CModel) : CModel :=
  let m := CModel.mk fresh (String.intercalate ">>" (layers.map CModel.name))
    FwdFunc.chainFwd layers DimState.unset DimState.unset
  match layers.head?, lastO layers with
  | some f, some l =>
    if f.nI.isSet && l.nO.isSet then init initL initLXY predict getW m none none
    else m
  | _, _ => m

/-- `chain` from `chain.py`: when the first argument's forward function is
the chain forward, extend that model's sublayer list in place and return
the same instance; otherwise build a fresh composite. -/
def chain {δ : Type} (initL : CModel → CModel)
    (initLXY : CModel → Option δ → Option δ → CModel)
    (predict : CModel → Option δ → Option δ) (getW : δ → Nat)
    (fresh : Nat) (layers : List CModel) : CModel :=
  match layers with
  | first :: rest =>
    if first.func = FwdFunc.chainFwd then first.setLayers (first.layers ++ rest)
    else chainNew initL initLXY predict getW fresh (first :: rest)
  | [] => chainNew initL initLXY predict getW fresh []

end Chain

/-! ## MeanPool (`src/thinc/layers/meanpool.py`) -/

namespace MeanPool

/-- The backend kernels MeanPool delegates to (external collaborator). -/
structure Ops (Arr Len : Type) : Type where
  mean_pool : Arr → Len → Arr
  backprop_mean_pool : Arr → Len → Arr

/-- `forward` from `meanpool.py`: output is `ops.mean_pool(X, lengths)`;
the backward closure returns the recovered dense gradient paired with the
unmodified `lengths`. -/
def forward {Arr Len : Type} (ops : Ops Arr Len) (X_lengths : Arr × Len)
    (is_train : Bool) : Arr × (Arr → Arr × Len) :=
  (ops.mean_pool X_lengths.1 X_lengths.2,
   fun dY => (ops.backprop_mean_pool dY X_lengths.2, X_lengths.2))

end MeanPool

/-! ## LayerNorm (`src/thinc/neural/_classes/layernorm.py`)

Rows are indexed by `Fin B` (batch axis, numpy axis 0) and features by
`Fin N` (feature axis, numpy axis 1). The numpy power `var ** (-1./2.)`
has no exact rational counterpart, so it is an abstract scalar function
`invSqrt` (part of the external array backend); `var ** (-1.)` is the
exact field inverse. The parameter memory touched by the optimizer is the
`LNParams` record; the optimizer itself is the abstract `applySgd`. -/

/-- A batch-by-feature array of scalars. -/
abbrev Mat (B N : Nat) : Type := Fin B → Fin N → ℚ

/-- The parameter memory of one LayerNorm instance: scale `G`, bias `b`,
and their gradient accumulators. -/
structure LNParams (N : Nat) : Type where
  G : Fin N → ℚ
  b : Fin N → ℚ
  d_G : Fin N → ℚ
  d_b : Fin N → ℚ

namespace LayerNorm

/-- Per-row mean over the feature axis (`X.mean(axis=1)`). -/
def rowMean {B N : Nat} (X : Mat B N) : Fin B → ℚ :=
  fun i => (∑ j, X i j) / (N : ℚ)

/-- Per-row population variance over the feature axis plus the `1e-08`
epsilon (`X.var(axis=1) + 1e-08`). -/
def rowVar {B N : Nat} (X : Mat B N) : Fin B → ℚ :=
  fun i => (∑ j, (X i j - rowMean X i) ^ 2) / (N : ℚ) + 1 / 100000000

/-- `_get_moments`: the feature count as a scalar, the per-row mean, and
the per-row variance-plus-epsilon. -/
def get_moments {B N : Nat} (X : Mat B N) : ℚ × (Fin B → ℚ) × (Fin B → ℚ) :=
  ((N : ℚ), rowMean X, rowVar X)

/-- `_forward`: normalize, `(X - mu) * var ** (-1/2)`. -/
def forwardNorm {B N : Nat} (invSqrt : ℚ → ℚ) (X : Mat B N) : Mat B N :=
  fun i j => (X i j - rowMean X i) * invSqrt (rowVar X i)

/-- `_get_d_moments`: `dist = X - mu`, per-row `sum(dy)` and
`sum(dy * dist)`. -/
def get_d_moments {B N : Nat} (dy X : Mat B N) (mu : Fin B → ℚ) :
    Mat B N × (Fin B → ℚ) × (Fin B → ℚ) :=
  (fun i j => X i j - mu i,
   fun i => ∑ j, dy i j,
   fun i => ∑ j, dy i j * (X i j - mu i))

/-- The backward closure of `_begin_update_scale_shift`: accumulate
`d_b += sum(g, axis=0)` and `d_G += sum(g * Xhat, axis=0)`, apply the
optimizer in place keyed by the layer's id when one is supplied, and pass
`g * G` through (reading `G` from the possibly-updated memory, as the
Python closure reads `self.G` after the `sgd` call). -/
def rescale_backward {B N : Nat} {Sgd : Type} (Xhat : Mat B N)
    (applySgd : Sgd → Nat → LNParams N → LNParams N) (uid : Nat)
    (g : Mat B N) (sgd : Option Sgd) (stb : LNParams N) :
    Mat B N × LNParams N :=
  let st1 := { stb with
    d_b := fun j => stb.d_b j + ∑ i, g i j,
    d_G := fun j => stb.d_G j + ∑ i, g i j * Xhat i j }
  let st2 := match sgd with
    | some s => applySgd s uid st1
    | none => st1
  (fun i j => g i j * st2.G j, st2)

/-- `_begin_update_scale_shift`: the affine output `Xhat * G + b`
(parameters read at forward time) paired with the rescale backward. -/
def begin_update_scale_shift {B N : Nat} {Sgd : Type} (st : LNParams N)
    (Xhat : Mat B N) (applySgd : Sgd → Nat → LNParams N → LNParams N)
    (uid : Nat) :
    Mat B N × (Mat B N → Option Sgd → LNParams N → Mat B N × LNParams N) :=
  (fun i j => Xhat i j * st.G j + st.b j,
   rescale_backward Xhat applySgd uid)

/-- `finish_update` from `begin_update`, taking the gradient after the
dropout wrapper has undone dropout: run the rescale backward, form the
moment terms, compute `d_xhat` exactly as the source does (`N*dy' -
sum(dy') - dist * var**(-1) * sum(dy'*dist)`, then `*= var ** (-1/2)`,
then `/= N`), and feed the result to the child's backward closure. The
child's backward may fail, modelled as `Except`. -/
def finish_update {B N : Nat} {Sgd E γ : Type} (invSqrt : ℚ → ℚ)
    (applySgd : Sgd → Nat → LNParams N → LNParams N) (uid : Nat)
    (Xc : Mat B N) (bc : Mat B N → Option Sgd → Except E γ)
    (dy : Mat B N) (sgd : Option Sgd) (stb : LNParams N) :
    Except E γ × LNParams N :=
  let mu := rowMean Xc
  let var := rowVar Xc
  let Nf : ℚ := (N : ℚ)
  let Xhat := forwardNorm invSqrt Xc
  let r := rescale_backward Xhat applySgd uid dy sgd stb
  let dy2 := r.1
  let dm := get_d_moments dy2 Xc mu
  let dist := dm.1
  let sum_dy := dm.2.1
  let sum_dy_dist := dm.2.2
  let d_xhat0 : Mat B N := fun i j =>
    Nf * dy2 i j - sum_dy i - dist i j * (var i)⁻¹ * sum_dy_dist i
  let d_xhat1 : Mat B N := fun i j => d_xhat0 i j * invSqrt (var i)
  let d_xhat : Mat B N := fun i j => d_xhat1 i j / Nf
  (bc d_xhat sgd, r.2)

end LayerNorm

/-- The child layer as consumed by `LayerNorm.begin_update`: its training
update (input of abstract type `ξ`, dropout rate, yielding the child
output and a fallible backward closure) and its optional `drop_factor`
attribute. -/
structure LNChild (ξ : Type) (B N : Nat) (Sgd E γ : Type) : Type where
  beginUpdate : ξ → ℚ → Mat B N × (Mat B N → Option Sgd → Except E γ)
  dropFactor : Option ℚ

namespace LayerNorm

/-- `begin_update`: run the child's training update with dropout rate
exactly `0`, compute moments and `Xhat`, apply the affine rescale, scale
the caller's dropout rate by the child's `drop_factor` (defaulting to 1),
apply the backend dropout to the affine output, and return the dropped
output together with the dropout-wrapped `finish_update`. The backend
`dropout` returns the dropped output and the gradient-mask application
used by its backward wrapper. -/
def begin_update {ξ : Type} {B N : Nat} {Sgd E γ : Type} (invSqrt : ℚ → ℚ)
    (dropout : Mat B N → ℚ → Mat B N × (Mat B N → Mat B N))
    (applySgd : Sgd → Nat → LNParams N → LNParams N) (uid : Nat)
    (child : LNChild ξ B N Sgd E γ) (X : ξ) (drop : ℚ) (st : LNParams N) :
    Mat B N × (Mat B N → Option Sgd → LNParams N → Except E γ × LNParams N) :=
  let c := child.beginUpdate X 0
  let Xc := c.1
  let bc := c.2
  let Xhat := forwardNorm invSqrt Xc
  let ss := begin_update_scale_shift st Xhat applySgd uid
  let drop2 := drop * (match child.dropFactor with
    | some f => f
    | none => 1)
  let d := dropout ss.1 drop2
  (d.1, fun dY sgd stb => finish_update invSqrt applySgd uid Xc bc (d.2 dY) sgd stb)

/-- Spec-side description of the full LayerNorm backward (claim wording):
accumulate `d_b += sum(dy)` and `d_G += sum(dy * Xhat)` over the batch
axis, apply the optimizer keyed by the layer id when supplied, let `dy'`
be the affine pass-through `dy * G`, and feed
`(N*dy' - sum(dy') - dist * var⁻¹ * sum(dy'*dist)) * var^(-1/2) / N`
into the child's backward closure, where `dist = X - mu` and `var` is the
per-row population variance plus `1e-8`. -/
def backwardSpec {B N : Nat} {Sgd E γ : Type} (invSqrt : ℚ → ℚ)
    (applySgd : Sgd → Nat → LNParams N → LNParams N) (uid : Nat)
    (Xc : Mat B N) (bc : Mat B N → Option Sgd → Except E γ)
    (dy : Mat B N) (sgd : Option Sgd) (stb : LNParams N) :
    Except E γ × LNParams N :=
  let stAcc : LNParams N := LNParams.mk stb.G stb.b
    (fun j => stb.d_G j + ∑ i, dy i j * ((Xc i j - rowMean Xc i) * invSqrt (rowVar Xc i)))
    (fun j => stb.d_b j + ∑ i, dy i j)
  let stU := match sgd with
    | some s => applySgd s uid stAcc
    | none => stAcc
  let dyG : Mat B N := fun i j => dy i j * stU.G j
  (bc (fun i j =>
      ((N : ℚ) * dyG i j - (∑ k, dyG i k)
        - (Xc i j - rowMean Xc i) * (rowVar Xc i)⁻¹
          * (∑ k, dyG i k * (Xc i k - rowMean Xc i)))
        * invSqrt (rowVar Xc i) / (N : ℚ)) sgd,
   stU)

end LayerNorm

/-! ## Supporting lemmas -/

theorem foldl_reverse_app {α : Type} (cbs : List (α → α)) (dY : α) :
    cbs.reverse.foldl (fun g cb => cb g) dY = Chain.specBack cbs dY := by
  induction cbs generalizing dY with
  | nil => rfl
  | cons c cs ih =>
    simp only [List.reverse_cons, List.foldl_append, List.foldl_cons,
      List.foldl_nil, ih, Chain.specBack, List.foldr]

/-! ## Claim theorems -/

/-- C1: the chain forward applies each sublayer to the running input in
order with the training flag unchanged, collects the backward closures in
invocation order, and returns the last sublayer's output; the backward
closure applies the collected closures in reverse order and returns the
innermost result; in particular `chain(f, g)(x) = g(f(x))`. -/
theorem chain_forward_backward_correct {α : Type}
    (layers : List (ChainLayer α)) (X : α) (it : Bool) (h : layers ≠ []) :
    Chain.forward layers X it
      = some (Chain.specOut layers X it,
              fun dY => Chain.specBack (Chain.specCbs layers X it) dY)
    ∧ ∀ (f g : ChainLayer α) (x : α),
        (Chain.forward [f, g] x it).map Prod.fst = some (g (f x it).1 it).1 := by
  constructor
  · match layers with
    | [] => exact absurd rfl h
    | l :: ls =>
      simp only [Chain.forward, Chain.runLayers_eq]
      exact congrArg some (congrArg _ (funext fun dY => foldl_reverse_app _ dY))
  · intro f g x
    simp [Chain.forward, Chain.runLayers]

/-- A concrete layer for the C1 witness: forward adds one, backward adds
ten. -/
def wLayerF : ChainLayer ℚ := fun x _ => (x + 1, fun d => d + 10)

/-- A concrete layer for the C1 witness: forward doubles, backward
triples. -/
def wLayerG : ChainLayer ℚ := fun x _ => (x * 2, fun d => d * 3)

theorem chain_forward_backward_correct_witness :
    Chain.forward [wLayerF, wLayerG] (3 : ℚ) true
      = some (Chain.specOut [wLayerF, wLayerG] (3 : ℚ) true,
              fun dY => Chain.specBack (Chain.specCbs [wLayerF, wLayerG] (3 : ℚ) true) dY)
    ∧ ∀ (f g : ChainLayer ℚ) (x : ℚ),
        (Chain.forward [f, g] x true).map Prod.fst = some (g (f x true).1 true).1 :=
  chain_forward_backward_correct [wLayerF, wLayerG] 3 true (by simp)

/-- C5: MeanPool's forward returns the backend's `mean_pool(X, lengths)`,
and its backward closure returns `(backprop_mean_pool(dY, lengths),
lengths)` with the identical `lengths` received in the forward input; the
layer is a pure wiring of the backend calls. -/
theorem meanpool_forward_backward {Arr Len : Type} (ops : MeanPool.Ops Arr Len)
    (X : Arr) (lengths : Len) (it : Bool) :
    (MeanPool.forward ops (X, lengths) it).1 = ops.mean_pool X lengths
    ∧ ∀ dY, (MeanPool.forward ops (X, lengths) it).2 dY
        = (ops.backprop_mean_pool dY lengths, lengths) :=
  ⟨rfl, fun _ => rfl⟩

/-- C6: a chain with zero sublayers initializes as a no-op (the model is
returned unchanged for any sample arguments), and its forward pass yields
an error (`none`) rather than passing the input through. -/
theorem chain_empty_behavior :
    (∀ (δ : Type) (initL : CModel → CModel)
        (initLXY : CModel → Option δ → Option δ → CModel)
        (predict : CModel → Option δ → Option δ) (getW : δ → Nat)
        (m : CModel) (X? Y? : Option δ),
        m.layers = [] → Chain.init initL initLXY predict getW m X? Y? = m)
    ∧ ∀ (α : Type) (X : α) (it : Bool),
        Chain.forward ([] : List (ChainLayer α)) X it = none := by
  constructor
  · intro δ initL initLXY predict getW m X? Y? h
    simp [Chain.init, h]
  · intro α X it
    rfl

/-- The empty chain model for the C6 witness. -/
def wEmptyChain : CModel :=
  CModel.mk 0 "" FwdFunc.chainFwd [] DimState.unset DimState.unset

theorem chain_empty_behavior_witness :
    Chain.init id (fun l _ _ => l) (fun _ x => x) (fun (_ : ℚ) => 0)
        wEmptyChain none none = wEmptyChain
    ∧ Chain.forward ([] : List (ChainLayer ℚ)) (5 : ℚ) true = none :=
  ⟨chain_empty_behavior.1 ℚ id (fun l _ _ => l) (fun _ x => x) (fun _ => 0)
      wEmptyChain none none rfl,
   chain_empty_behavior.2 ℚ 5 true⟩

@[simp] theorem CModel.uid_mk (u : Nat) (n : String) (f : FwdFunc)
    (ls : List CModel) (i o : DimState) :
    (CModel.mk u n f ls i o).uid = u := rfl

@[simp] theorem CModel.func_mk (u : Nat) (n : String) (f : FwdFunc)
    (ls : List CModel) (i o : DimState) :
    (CModel.mk u n f ls i o).func = f := rfl

@[simp] theorem CModel.layers_mk (u : Nat) (n : String) (f : FwdFunc)
    (ls : List CModel) (i o : DimState) :
    (CModel.mk u n f ls i o).layers = ls := rfl

@[simp] theorem CModel.nI_mk (u : Nat) (n : String) (f : FwdFunc)
    (ls : List CModel) (i o : DimState) :
    (CModel.mk u n f ls i o).nI = i := rfl

@[simp] theorem CModel.nO_mk (u : Nat) (n : String) (f : FwdFunc)
    (ls : List CModel) (i o : DimState) :
    (CModel.mk u n f ls i o).nO = o := rfl

theorem Chain.setEndDims_uid (m : CModel) :
    (Chain.setEndDims m).uid = m.uid := by
  simp [Chain.setEndDims]

theorem Chain.setEndDims_func (m : CModel) :
    (Chain.setEndDims m).func = m.func := by
  simp [Chain.setEndDims]

theorem Chain.setEndDims_layers (m : CModel) :
    (Chain.setEndDims m).layers = m.layers := by
  simp [Chain.setEndDims]

theorem Chain.chainNew_pair {δ : Type} (initL : CModel → CModel)
    (initLXY : CModel → Option δ → Option δ → CModel)
    (predict : CModel → Option δ → Option δ) (getW : δ → Nat)
    (fresh : Nat) (a b : CModel) :
    Chain.chainNew initL initLXY predict getW fresh [a, b]
      = (if a.nI.isSet && b.nO.isSet then
          Chain.init initL initLXY predict getW
            (CModel.mk fresh (String.intercalate ">>" [a.name, b.name])
              FwdFunc.chainFwd [a, b] DimState.unset DimState.unset) none none
        else CModel.mk fresh (String.intercalate ">>" [a.name, b.name])
          FwdFunc.chainFwd [a, b] DimState.unset DimState.unset) := rfl

theorem Chain.init_cons_none_none {δ : Type} (initL : CModel → CModel)
    (initLXY : CModel → Option δ → Option δ → CModel)
    (predict : CModel → Option δ → Option δ) (getW : δ → Nat)
    (u : Nat) (nm : String) (f : FwdFunc) (x : CModel) (rest : List CModel)
    (i o : DimState) :
    Chain.init initL initLXY predict getW (CModel.mk u nm f (x :: rest) i o)
        none none
      = Chain.setEndDims ((CModel.mk u nm f (x :: rest) i o).setLayers
          ((x :: rest).map initL)) := rfl

/-- C3: chaining an existing chain `C = chain(a, b)` with a further layer
`c` returns the same instance `C` (same identity), with its sublayer list
extended in place to `[a, b, c]`; no new chain wrapping the existing chain
is created. -/
theorem chain_flattening {δ : Type} (initL : CModel → CModel)
    (initLXY : CModel → Option δ → Option δ → CModel)
    (predict : CModel → Option δ → Option δ) (getW : δ → Nat)
    (a b c : CModel) (ha : a.func ≠ FwdFunc.chainFwd)
    (hInit : ∀ m, (initL m).uid = m.uid) :
    Chain.chain initL initLXY predict getW 101
        [Chain.chain initL initLXY predict getW 100 [a, b], c]
      = (Chain.chain initL initLXY predict getW 100 [a, b]).setLayers
          ((Chain.chain initL initLXY predict getW 100 [a, b]).layers ++ [c])
    ∧ (Chain.chain initL initLXY predict getW 101
        [Chain.chain initL initLXY predict getW 100 [a, b], c]).uid
      = (Chain.chain initL initLXY predict getW 100 [a, b]).uid
    ∧ (Chain.chain initL initLXY predict getW 101
        [Chain.chain initL initLXY predict getW 100 [a, b], c]).func
      = FwdFunc.chainFwd
    ∧ (Chain.chain initL initLXY predict getW 101
        [Chain.chain initL initLXY predict getW 100 [a, b], c]).layers.map
          CModel.uid
      = [a.uid, b.uid, c.uid] := by
  set C := Chain.chain initL initLXY predict getW 100 [a, b] with hCdef
  have hC : C = Chain.chainNew initL initLXY predict getW 100 [a, b] := by
    rw [hCdef]; simp [Chain.chain, ha]
  have hCfunc : C.func = FwdFunc.chainFwd := by
    rw [hC, Chain.chainNew_pair]
    cases hc : a.nI.isSet && b.nO.isSet with
    | false => simp [hc]
    | true => simp [hc, Chain.init_cons_none_none, Chain.setEndDims_func]
  have hClayers : C.layers.map CModel.uid = [a.uid, b.uid] := by
    rw [hC, Chain.chainNew_pair]
    cases hc : a.nI.isSet && b.nO.isSet with
    | false => simp [hc]
    | true => simp [hc, Chain.init_cons_none_none, Chain.setEndDims_layers, hInit]
  have hD : Chain.chain initL initLXY predict getW 101 [C, c]
      = C.setLayers (C.layers ++ [c]) := by
    simp only [Chain.chain]
    rw [if_pos hCfunc]
  refine ⟨hD, ?_, ?_, ?_⟩
  · rw [hD]; simp
  · rw [hD]; simp [hCfunc]
  · rw [hD]; simp [hClayers]

/-- Concrete non-chain layers for the C3 witness. -/
def wLayerA : CModel := CModel.mk 1 "a" (FwdFunc.other 0) [] DimState.unset DimState.unset

def wLayerB : CModel := CModel.mk 2 "b" (FwdFunc.other 1) [] DimState.unset DimState.unset

def wLayerC : CModel := CModel.mk 3 "c" (FwdFunc.other 2) [] DimState.unset DimState.unset

theorem chain_flattening_witness :
    Chain.chain id (fun l _ _ => l) (fun _ x => x) (fun (_ : ℚ) => 0) 101
        [Chain.chain id (fun l _ _ => l) (fun _ x => x) (fun (_ : ℚ) => 0) 100
          [wLayerA, wLayerB], wLayerC]
      = (Chain.chain id (fun l _ _ => l) (fun _ x => x) (fun (_ : ℚ) => 0) 100
          [wLayerA, wLayerB]).setLayers
          ((Chain.chain id (fun l _ _ => l) (fun _ x => x) (fun (_ : ℚ) => 0) 100
            [wLayerA, wLayerB]).layers ++ [wLayerC])
    ∧ (Chain.chain id (fun l _ _ => l) (fun _ x => x) (fun (_ : ℚ) => 0) 101
        [Chain.chain id (fun l _ _ => l) (fun _ x => x) (fun (_ : ℚ) => 0) 100
          [wLayerA, wLayerB], wLayerC]).uid
      = (Chain.chain id (fun l _ _ => l) (fun _ x => x) (fun (_ : ℚ) => 0) 100
          [wLayerA, wLayerB]).uid
    ∧ (Chain.chain id (fun l _ _ => l) (fun _ x => x) (fun (_ : ℚ) => 0) 101
        [Chain.chain id (fun l _ _ => l) (fun _ x => x) (fun (_ : ℚ) => 0) 100
          [wLayerA, wLayerB], wLayerC]).func
      = FwdFunc.chainFwd
    ∧ (Chain.chain id (fun l _ _ => l) (fun _ x => x) (fun (_ : ℚ) => 0) 101
        [Chain.chain id (fun l _ _ => l) (fun _ x => x) (fun (_ : ℚ) => 0) 100
          [wLayerA, wLayerB], wLayerC]).layers.map CModel.uid
      = [wLayerA.uid, wLayerB.uid, wLayerC.uid] :=
  chain_flattening id (fun l _ _ => l) (fun _ x => x) (fun _ => 0)
    wLayerA wLayerB wLayerC (by decide) (fun _ => rfl)

/-- C4: one step of the reverse walk of chain initialization with sample
data: if a running output width is known and the visited sublayer's `nO`
is not yet set, that sublayer's `nO` is set to the running width; then, if
the sublayer has a set input-width `nI`, its value becomes the running
width for the remaining (earlier) sublayers; otherwise the walk stops and
the earlier sublayers are left untouched. -/
theorem chain_init_reverse_walk (l : CModel) (ls : List CModel) (w? : Option Nat) :
    Chain.revWalk (l :: ls) w?
      = Chain.specWalkStep w? l ::
        (match (Chain.specWalkStep w? l).nI with
          | DimState.set v => Chain.revWalk ls (some v)
          | _ => ls) := by
  cases l with
  | mk u n f lys i o =>
    cases w? with
    | none =>
      cases i <;> simp [Chain.revWalk, Chain.specWalkStep, CModel.setNO]
    | some w =>
      cases o <;> cases i <;>
        simp [Chain.revWalk, Chain.specWalkStep, CModel.setNO]

/-- C2: in every training-mode `begin_update`, the backward closure, given
the gradient after undoing dropout, accumulates `d_b += sum(dy, axis=0)`
and `d_G += sum(dy * Xhat, axis=0)`, applies the optimizer in place keyed
by the layer's id when one is supplied, passes `dy * G` onward, computes
`d_xhat = (N*dy' - sum(dy') - dist * var⁻¹ * sum(dy'*dist)) * var^(-1/2) / N`
with `dy'` the affine pass-through gradient, `dist = X - mu`, `N` the
feature count and `var` the per-row population variance plus `1e-8`, and
returns the result of feeding `d_xhat` to the child's backward closure. -/
theorem layernorm_backward_formula {B N : Nat} {Sgd E γ : Type}
    (invSqrt : ℚ → ℚ) (applySgd : Sgd → Nat → LNParams N → LNParams N)
    (uid : Nat) (Xc : Mat B N) (bc : Mat B N → Option Sgd → Except E γ)
    (dy : Mat B N) (sgd : Option Sgd) (stb : LNParams N) :
    LayerNorm.finish_update invSqrt applySgd uid Xc bc dy sgd stb
      = LayerNorm.backwardSpec invSqrt applySgd uid Xc bc dy sgd stb
    ∧ ∀ (ξ : Type) (dropout : Mat B N → ℚ → Mat B N × (Mat B N → Mat B N))
        (child : LNChild ξ B N Sgd E γ) (X : ξ) (drop : ℚ) (st : LNParams N)
        (dY : Mat B N),
        (LayerNorm.begin_update invSqrt dropout applySgd uid child X drop st).2
            dY sgd stb
          = LayerNorm.finish_update invSqrt applySgd uid
              (child.beginUpdate X 0).1 (child.beginUpdate X 0).2
              ((dropout
                  (LayerNorm.begin_update_scale_shift st
                    (LayerNorm.forwardNorm invSqrt (child.beginUpdate X 0).1)
                    applySgd uid).1
                  (drop * (match child.dropFactor with
                    | some f => f
                    | none => 1))).2 dY) sgd stb :=
  ⟨rfl, fun _ _ _ _ _ _ _ => rfl⟩

/-- C7: when the affine-backward step completes but the child's backward
closure then fails, the error propagates uncaught, and the gradient
accumulators `d_b` and `d_G` are left in their already-mutated state. -/
theorem layernorm_backward_not_atomic {B N : Nat} {Sgd E γ : Type}
    (invSqrt : ℚ → ℚ) (applySgd : Sgd → Nat → LNParams N → LNParams N)
    (uid : Nat) (Xc dy : Mat B N) (bc : Mat B N → Option Sgd → Except E γ)
    (e : E) (stb : LNParams N)
    (hbc : ∀ g s, bc g s = Except.error e) :
    (LayerNorm.finish_update invSqrt applySgd uid Xc bc dy none stb).1
      = Except.error e
    ∧ (LayerNorm.finish_update invSqrt applySgd uid Xc bc dy none stb).2.d_b
      = (fun j => stb.d_b j + ∑ i, dy i j)
    ∧ (LayerNorm.finish_update invSqrt applySgd uid Xc bc dy none stb).2.d_G
      = (fun j => stb.d_G j + ∑ i, dy i j * LayerNorm.forwardNorm invSqrt Xc i j) :=
  ⟨hbc _ none, rfl, rfl⟩

/-- Concrete inputs for the C7 witness: one row, one feature. -/
def wXc1 : Mat 1 1 := fun _ _ => 0

def wDy1 : Mat 1 1 := fun _ _ => 1

def wSt1 : LNParams 1 :=
  LNParams.mk (fun _ => 1) (fun _ => 0) (fun _ => 0) (fun _ => 0)

theorem layernorm_backward_not_atomic_witness :
    (LayerNorm.finish_update (fun q => q) (fun (_ : Unit) _ s => s) 0 wXc1
        (fun _ _ => (Except.error (7 : ℕ) : Except ℕ ℚ)) wDy1 none wSt1).1
      = Except.error (7 : ℕ)
    ∧ (LayerNorm.finish_update (fun q => q) (fun (_ : Unit) _ s => s) 0 wXc1
        (fun _ _ => (Except.error (7 : ℕ) : Except ℕ ℚ)) wDy1 none wSt1).2.d_b
      = (fun j => wSt1.d_b j + ∑ i, wDy1 i j)
    ∧ (LayerNorm.finish_update (fun q => q) (fun (_ : Unit) _ s => s) 0 wXc1
        (fun _ _ => (Except.error (7 : ℕ) : Except ℕ ℚ)) wDy1 none wSt1).2.d_G
      = (fun j => wSt1.d_G j
          + ∑ i, wDy1 i j * LayerNorm.forwardNorm (fun q => q) wXc1 i j) :=
  layernorm_backward_not_atomic (fun q => q) (fun (_ : Unit) _ s => s) 0 wXc1
    wDy1 (fun _ _ => (Except.error (7 : ℕ) : Except ℕ ℚ)) 7 wSt1
    (fun _ _ => rfl)

/-- C10: `begin_update` always invokes the child's training update with a
dropout rate of exactly `0`; dropout is applied exactly once, at the
LayerNorm level after the affine rescale, with effective rate equal to the
caller's `drop` times the child's `drop_factor` (defaulting to `1` when
the child declares none). -/
theorem layernorm_dropout_once {ξ : Type} {B N : Nat} {Sgd E γ : Type}
    (invSqrt : ℚ → ℚ) (dropout : Mat B N → ℚ → Mat B N × (Mat B N → Mat B N))
    (applySgd : Sgd → Nat → LNParams N → LNParams N) (uid : Nat)
    (child : LNChild ξ B N Sgd E γ) (X : ξ) (drop : ℚ) (st : LNParams N) :
    LayerNorm.begin_update invSqrt dropout applySgd uid child X drop st
      = ((dropout
            (LayerNorm.begin_update_scale_shift st
              (LayerNorm.forwardNorm invSqrt (child.beginUpdate X 0).1)
              applySgd uid).1
            (drop * (match child.dropFactor with
              | some f => f
              | none => 1))).1,
         fun dY sgd stb => LayerNorm.finish_update invSqrt applySgd uid
            (child.beginUpdate X 0).1 (child.beginUpdate X 0).2
            ((dropout
                (LayerNorm.begin_update_scale_shift st
                  (LayerNorm.forwardNorm invSqrt (child.beginUpdate X 0).1)
                  applySgd uid).1
                (drop * (match child.dropFactor with
                  | some f => f
                  | none => 1))).2 dY) sgd stb)
    ∧ (child.dropFactor = none →
        (LayerNorm.begin_update invSqrt dropout applySgd uid child X drop st).1
          = (dropout
              (LayerNorm.begin_update_scale_shift st
                (LayerNorm.forwardNorm invSqrt (child.beginUpdate X 0).1)
                applySgd uid).1
              (drop * 1)).1) := by
  refine ⟨rfl, fun h => ?_⟩
  simp only [LayerNorm.begin_update, h]

/-- A concrete child for the C10 witness: identity-like child with no
`drop_factor` attribute. -/
def wChild : LNChild ℚ 1 1 Unit ℕ ℚ :=
  LNChild.mk (fun x _ => (fun _ _ => x, fun g _ => Except.ok (g 0 0))) none

/-- A concrete backend dropout for the C10 witness: keeps the array and
the gradient unchanged (rate recorded nowhere). -/
def wDropout : Mat 1 1 → ℚ → Mat 1 1 × (Mat 1 1 → Mat 1 1) :=
  fun y _ => (y, fun d => d)

theorem layernorm_dropout_once_witness :
    LayerNorm.begin_update (fun q => q) wDropout (fun (_ : Unit) _ s => s) 0
        wChild (3 : ℚ) (1 / 2) wSt1
      = ((wDropout
            (LayerNorm.begin_update_scale_shift wSt1
              (LayerNorm.forwardNorm (fun q => q) (wChild.beginUpdate 3 0).1)
              (fun (_ : Unit) _ s => s) 0).1
            ((1 / 2) * (match wChild.dropFactor with
              | some f => f
              | none => 1))).1,
         fun dY sgd stb => LayerNorm.finish_update (fun q => q)
            (fun (_ : Unit) _ s => s) 0
            (wChild.beginUpdate 3 0).1 (wChild.beginUpdate 3 0).2
            ((wDropout
                (LayerNorm.begin_update_scale_shift wSt1
                  (LayerNorm.forwardNorm (fun q => q) (wChild.beginUpdate 3 0).1)
                  (fun (_ : Unit) _ s => s) 0).1
                ((1 / 2) * (match wChild.dropFactor with
                  | some f => f
                  | none => 1))).2 dY) sgd stb)
    ∧ (LayerNorm.begin_update (fun q => q) wDropout (fun (_ : Unit) _ s => s) 0
          wChild (3 : ℚ) (1 / 2) wSt1).1
      = (wDropout
          (LayerNorm.begin_update_scale_shift wSt1
            (LayerNorm.forwardNorm (fun q => q) (wChild.beginUpdate 3 0).1)
            (fun (_ : Unit) _ s => s) 0).1
          ((1 / 2) * 1)).1 :=
  ⟨(layernorm_dropout_once (fun q => q) wDropout (fun (_ : Unit) _ s => s) 0
      wChild 3 (1 / 2) wSt1).1,
   (layernorm_dropout_once (fun q => q) wDropout (fun (_ : Unit) _ s => s) 0
      wChild 3 (1 / 2) wSt1).2 rfl⟩

/-! ## LayerNorm: dtype invariant and width resolution -/

/-- A floating-point precision tag. -/
inductive NpDType : Type where
  | f32 : NpDType
  | f64 : NpDType
deriving DecidableEq

/-- Binary dtype promotion of the array backend: 32-bit with 32-bit stays
32-bit, anything else widens. -/
def NpDType.promote : NpDType → NpDType → NpDType
  | NpDType.f32, NpDType.f32 => NpDType.f32
  | _, _ => NpDType.f64

/-- Modelled from the spec: the array backend (numpy ops, outside the
covered sources) computes the moments in the input's precision (scalar
epsilon does not widen a float32 array), so the dtype of the rescaled
output `Xhat * G + b` in `begin_update` is the promotion chain of the
child output's dtype through `mu`, `var`, `Xhat`, then `G` and `b`. -/
def lnOutDType (d dG db : NpDType) : NpDType :=
  let mu := d
  let var := d
  let xhat := NpDType.promote (NpDType.promote d mu) var
  NpDType.promote (NpDType.promote xhat dG) db

/-- C8: in every training-mode forward pass, after dropout is applied to
the rescaled output, the output dtype is float32 (`assert y.dtype ==
'float32'`), for every input the layer accepts (a float32 child output and
float32 parameters, per the spec's single-precision contract, with a
dtype-preserving backend dropout). -/
theorem layernorm_float32_assertion (d : NpDType) (dd : NpDType → NpDType)
    (hd : d = NpDType.f32) (hdd : ∀ t, dd t = t) :
    dd (lnOutDType d NpDType.f32 NpDType.f32) = NpDType.f32 := by
  subst hd
  rw [hdd]
  rfl

theorem layernorm_float32_assertion_witness :
    NpDType.f32 = NpDType.f32
    ∧ id (lnOutDType NpDType.f32 NpDType.f32 NpDType.f32) = NpDType.f32 :=
  ⟨rfl, layernorm_float32_assertion NpDType.f32 id rfl (fun _ => rfl)⟩

namespace LayerNorm

/-- Modelled from the spec: the `describe` attribute machinery and the
`Model` base class (outside the covered sources) resolve the width `nO`
used to allocate `G` and `b`; when resolution is impossible an error is
surfaced to the caller rather than a width being defaulted. The selection
order — explicit `nO` keyword, else a truthy `child.nO` — follows
`LayerNorm.__init__` in the source. -/
def resolve_nO (kwargsNO : Option Nat) (childNO : Option Nat) :
    Except String Nat :=
  match kwargsNO with
  | some v => Except.ok v
  | none => match childNO with
    | some c => if c = 0 then Except.error "nO could not be resolved" else Except.ok c
    | none => Except.error "nO could not be resolved"

end LayerNorm

/-- C9: constructing a LayerNorm with no explicit `nO` argument and a
child that supplies no declared output width makes width resolution fail
with an error surfaced to the caller; a successful resolution always comes
from the explicit argument or from the child, never from a silent
default. -/
theorem layernorm_nO_resolution :
    LayerNorm.resolve_nO none none = Except.error "nO could not be resolved"
    ∧ ∀ (k c : Option Nat) (v : Nat),
        LayerNorm.resolve_nO k c = Except.ok v → k = some v ∨ c = some v := by
  refine ⟨rfl, fun k c v h => ?_⟩
  match k with
  | some k0 =>
    left
    simp [LayerNorm.resolve_nO] at h
    rw [h]
  | none =>
    right
    match c with
    | none => simp [LayerNorm.resolve_nO] at h
    | some c0 =>
      by_cases hc : c0 = 0
      · subst hc; simp [LayerNorm.resolve_nO] at h
      · simp [LayerNorm.resolve_nO, hc] at h
        rw [h]

theorem layernorm_nO_resolution_witness :
    LayerNorm.resolve_nO none none = Except.error "nO could not be resolved"
    ∧ ((some 3 : Option Nat) = some 3 ∨ (none : Option Nat) = some 3) :=
  ⟨layernorm_nO_resolution.1,
   layernorm_nO_resolution.2 (some 3) none 3 rfl⟩
